import Mathlib

/-!
Shallow embedding of the perfid Diplomacy core (src/orders.py and
src/game_state.py): order parsing, order validation, default orders,
the phase state machine and territorial resolution, together with
theorems settling the specification claims.

Strings are processed as `List Char`; the Python regular expressions of
orders.py are embedded as a small backtracking matcher (`Re`) whose
result list enumerates alternatives in exactly Python's backtracking
priority order, so that the first full match corresponds to
`re.match`'s match.
-/

namespace Perfid

/-- ASCII lower-casing, as applied by `re.IGNORECASE` on ASCII input. -/
def lowerC (c : Char) : Char :=
  if 'A' ≤ c ∧ c ≤ 'Z' then Char.ofNat (c.toNat + 32) else c

/-- ASCII upper-casing, as applied by Python `str.upper()` on ASCII input. -/
def upperC (c : Char) : Char :=
  if 'a' ≤ c ∧ c ≤ 'z' then Char.ofNat (c.toNat - 32) else c

/-- Python whitespace (`str.strip`, regex `\s`) restricted to ASCII. -/
def pyWs (c : Char) : Bool :=
  c = ' ' ∨ c = '\t' ∨ c = '\n' ∨ c = '\x0b' ∨ c = '\x0c' ∨ c = '\r'

/-- Python `str.strip()` on a character list. -/
def pyStrip (s : List Char) : List Char :=
  ((s.dropWhile pyWs).reverse.dropWhile pyWs).reverse

/-- Python `s.split("(")[0]`: the prefix before the first `(`
(the whole string when there is none). -/
def beforeParen (s : List Char) : List Char :=
  s.takeWhile (· ≠ '(')

/-- Captured groups of one regex alternative: group index → captured text. -/
abbrev Caps := List (Nat × List Char)

/-- The regex fragment language needed by the nine order patterns of
orders.py.  Quantifiers only ever apply to single-character classes
there, which keeps the embedding small. -/
inductive Re where
  /-- a single character of a class, e.g. `[AF]`, `[-–—]`, `[^)]` -/
  | cls (p : Char → Bool) : Re
  /-- a case-insensitive literal word, e.g. `Build`, `Support` -/
  | litCI (w : List Char) : Re
  | seq (r₁ r₂ : Re) : Re
  /-- ordered alternation, e.g. `(?:Disband|D)` -/
  | alt (r₁ r₂ : Re) : Re
  /-- greedy `+` on a class, e.g. `\s+`, `[^)]+` -/
  | plusGreedy (p : Char → Bool) : Re
  /-- greedy `*` on a class, e.g. `\s*` -/
  | starGreedy (p : Char → Bool) : Re
  /-- lazy `+?` on a class, e.g. `[A-Za-z .\-]+?` -/
  | plusLazy (p : Char → Bool) : Re
  /-- greedy `(?:...)?` -/
  | opt (r : Re) : Re
  /-- capturing group number `i` -/
  | group (i : Nat) (r : Re) : Re

/-- Case-insensitive literal prefix match: when `w` (case-insensitively)
prefixes `s`, return the consumed prefix and the rest. -/
def litMatch : List Char → List Char → Option (List Char × List Char)
  | [], s => some ([], s)
  | _, [] => none
  | w :: ws, c :: cs =>
    if lowerC c = lowerC w then
      (litMatch ws cs).map fun (m, r) => (c :: m, r)
    else none

/-- Splits of `s` into a prefix of `k` class characters and a rest, for
`k = hi, hi-1, ..., lo` (greedy order) where `hi` is the length of the
maximal class run.  `rev = false` gives lazy order `lo, ..., hi`. -/
def classSplits (p : Char → Bool) (lo : Nat) (rev : Bool) (s : List Char) :
    List (List Char × List Char) :=
  let run := s.takeWhile p
  let rest := s.drop run.length
  let ks := (List.range (run.length + 1)).filter (lo ≤ ·)
  let ks := if rev then ks.reverse else ks
  ks.map fun k => (run.take k, run.drop k ++ rest)

/-- All ways `r` can match a prefix of `s`, in Python's backtracking
priority order.  Each result is (consumed prefix, rest, captures). -/
def Re.runs : Re → List Char → List (List Char × List Char × Caps)
  | .cls p, s =>
    match s with
    | [] => []
    | c :: cs => if p c then [([c], cs, [])] else []
  | .litCI w, s =>
    match litMatch w s with
    | some (m, r) => [(m, r, [])]
    | none => []
  | .seq r₁ r₂, s =>
    (r₁.runs s).flatMap fun (m₁, rest₁, c₁) =>
      (r₂.runs rest₁).map fun (m₂, rest₂, c₂) => (m₁ ++ m₂, rest₂, c₁ ++ c₂)
  | .alt r₁ r₂, s => r₁.runs s ++ r₂.runs s
  | .plusGreedy p, s => (classSplits p 1 true s).map fun (m, r) => (m, r, [])
  | .starGreedy p, s => (classSplits p 0 true s).map fun (m, r) => (m, r, [])
  | .plusLazy p, s => (classSplits p 1 false s).map fun (m, r) => (m, r, [])
  | .opt r, s => r.runs s ++ [([], s, [])]
  | .group i r, s => (r.runs s).map fun (m, rest, c) => (m, rest, (i, m) :: c)

/-- Anchored match (`^...$` on a string with no trailing newline): the
first alternative, in backtracking order, consuming the whole input. -/
def Re.fullMatch (r : Re) (s : List Char) : Option Caps :=
  ((r.runs s).find? fun t => t.2.1.isEmpty).map fun t => t.2.2

/-- `m.group(i)` for a group that participated in the match. -/
def grp (caps : Caps) (i : Nat) : List Char :=
  ((caps.find? fun e => e.1 = i).map Prod.snd).getD []

/-- `m.group(i)` for an optional group: `None` when it did not match. -/
def grpOpt (caps : Caps) (i : Nat) : Option (List Char) :=
  (caps.find? fun e => e.1 = i).map Prod.snd

-- --- The character classes of orders.py ---

/-- `[A-Za-z]` -/
def alphaC (c : Char) : Bool :=
  ('A' ≤ c ∧ c ≤ 'Z') ∨ ('a' ≤ c ∧ c ≤ 'z')

/-- `[A-Za-z .\-]` — the `_LOC` body class -/
def locC (c : Char) : Bool :=
  alphaC c ∨ c = ' ' ∨ c = '.' ∨ c = '-'

/-- `[AF]` under `re.IGNORECASE` -/
def afC (c : Char) : Bool :=
  lowerC c = 'a' ∨ lowerC c = 'f'

/-- `[-–—]` — move separators -/
def dashC (c : Char) : Bool :=
  c = '-' ∨ c = '–' ∨ c = '—'

/-- `[^)]` -/
def notRParenC (c : Char) : Bool :=
  c ≠ ')'

-- --- The patterns of orders.py, mirrored subexpression by subexpression ---

/-- `_LOC = ([A-Za-z][A-Za-z .\-]+?)(?:\s*\(([^)]+)\))?` with base group
`g` and coast group `g+1`. -/
def locRe (g : Nat) : Re :=
  .seq (.group g (.seq (.cls alphaC) (.plusLazy locC)))
    (.opt (.seq (.starGreedy pyWs)
      (.seq (.cls (· = '('))
        (.seq (.group (g + 1) (.plusGreedy notRParenC)) (.cls (· = ')'))))))

/-- `\s+` -/
def wsPlus : Re := .plusGreedy pyWs

/-- `(?:H|Hold)` -/
def holdKw : Re := .alt (.litCI ['H']) (.litCI ['H', 'o', 'l', 'd'])

/-- `(?:S|Support)` -/
def supportKw : Re :=
  .alt (.litCI ['S']) (.litCI ['S', 'u', 'p', 'p', 'o', 'r', 't'])

/-- `(?:C|Convoy)` -/
def convoyKw : Re := .alt (.litCI ['C']) (.litCI ['C', 'o', 'n', 'v', 'o', 'y'])

/-- `(?:Disband|D)` -/
def disbandKw : Re :=
  .alt (.litCI ['D', 'i', 's', 'b', 'a', 'n', 'd']) (.litCI ['D'])

/-- `(?:Disband|Remove)` -/
def disbandRemoveKw : Re :=
  .alt (.litCI ['D', 'i', 's', 'b', 'a', 'n', 'd'])
    (.litCI ['R', 'e', 'm', 'o', 'v', 'e'])

/-- `_MOVE_RE = ^([AF])\s+LOC\s+[-–—]\s+LOC$` -/
def moveRe : Re :=
  .seq (.group 1 (.cls afC)) (.seq wsPlus (.seq (locRe 2)
    (.seq wsPlus (.seq (.cls dashC) (.seq wsPlus (locRe 4))))))

/-- `_HOLD_RE = ^([AF])\s+LOC\s+(?:H|Hold)$` -/
def holdRe : Re :=
  .seq (.group 1 (.cls afC)) (.seq wsPlus (.seq (locRe 2) (.seq wsPlus holdKw)))

/-- `_SUPPORT_MOVE_RE = ^([AF])\s+LOC\s+(?:S|Support)\s+([AF])\s+LOC\s+[-–—]\s+LOC$` -/
def supportMoveRe : Re :=
  .seq (.group 1 (.cls afC)) (.seq wsPlus (.seq (locRe 2)
    (.seq wsPlus (.seq supportKw (.seq wsPlus (.seq (.group 4 (.cls afC))
      (.seq wsPlus (.seq (locRe 5)
        (.seq wsPlus (.seq (.cls dashC) (.seq wsPlus (locRe 7))))))))))))

/-- `_SUPPORT_HOLD_RE = ^([AF])\s+LOC\s+(?:S|Support)\s+([AF])\s+LOC\s*(?:H|Hold)?$` -/
def supportHoldRe : Re :=
  .seq (.group 1 (.cls afC)) (.seq wsPlus (.seq (locRe 2)
    (.seq wsPlus (.seq supportKw (.seq wsPlus (.seq (.group 4 (.cls afC))
      (.seq wsPlus (.seq (locRe 5)
        (.seq (.starGreedy pyWs) (.opt holdKw))))))))))

/-- `_CONVOY_RE = ^([AF])\s+LOC\s+(?:C|Convoy)\s+([AF])\s+LOC\s+[-–—]\s+LOC$` -/
def convoyRe : Re :=
  .seq (.group 1 (.cls afC)) (.seq wsPlus (.seq (locRe 2)
    (.seq wsPlus (.seq convoyKw (.seq wsPlus (.seq (.group 4 (.cls afC))
      (.seq wsPlus (.seq (locRe 5)
        (.seq wsPlus (.seq (.cls dashC) (.seq wsPlus (locRe 7))))))))))))

/-- `_RETREAT_DISBAND_RE = ^([AF])\s+LOC\s+(?:Disband|D)$` -/
def retreatDisbandRe : Re :=
  .seq (.group 1 (.cls afC))
    (.seq wsPlus (.seq (locRe 2) (.seq wsPlus disbandKw)))

/-- `_BUILD_RE = ^Build\s+([AF])\s+LOC$` -/
def buildRe : Re :=
  .seq (.litCI ['B', 'u', 'i', 'l', 'd'])
    (.seq wsPlus (.seq (.group 1 (.cls afC)) (.seq wsPlus (locRe 2))))

/-- `_WINTER_DISBAND_RE = ^(?:Disband|Remove)\s+([AF])\s+LOC$` -/
def winterDisbandRe : Re :=
  .seq disbandRemoveKw
    (.seq wsPlus (.seq (.group 1 (.cls afC)) (.seq wsPlus (locRe 2))))

/-- `_WAIVE_RE = ^Waive$` -/
def waiveRe : Re := .litCI ['W', 'a', 'i', 'v', 'e']

-- --- Parsed orders ---

/-- The structured dict returned by `parse_order`, one constructor per
order type, each carrying exactly the keys its Python dict carries. -/
inductive ParsedOrder where
  | waive : ParsedOrder
  | build (unit_type location : String) (coast : Option String) : ParsedOrder
  | disband (unit_type location : String) (coast : Option String) : ParsedOrder
  | retreat_disband (unit_type location : String) (coast : Option String) :
      ParsedOrder
  | support_move (unit_type location : String) (coast : Option String)
      (supported_type supported_loc : String) (supported_coast : Option String)
      (destination : String) (dest_coast : Option String) : ParsedOrder
  | convoy (unit_type location : String) (coast : Option String)
      (convoyed_type convoyed_loc : String) (convoyed_coast : Option String)
      (destination : String) (dest_coast : Option String) : ParsedOrder
  | support_hold (unit_type location : String) (coast : Option String)
      (supported_type supported_loc : String) (supported_coast : Option String) :
      ParsedOrder
  | move (unit_type location : String) (coast : Option String)
      (destination : String) (dest_coast : Option String) : ParsedOrder
  | hold (unit_type location : String) (coast : Option String) : ParsedOrder
  deriving DecidableEq, Repr

/-- `parsed["type"]` -/
def ParsedOrder.otype : ParsedOrder → String
  | .waive => "waive"
  | .build .. => "build"
  | .disband .. => "disband"
  | .retreat_disband .. => "retreat_disband"
  | .support_move .. => "support_move"
  | .convoy .. => "convoy"
  | .support_hold .. => "support_hold"
  | .move .. => "move"
  | .hold .. => "hold"

/-- `parsed["unit_type"]` (absent — only for `waive` — modelled as `""`;
the code never reads it there). -/
def ParsedOrder.unit_type : ParsedOrder → String
  | .waive => ""
  | .build u _ _ => u
  | .disband u _ _ => u
  | .retreat_disband u _ _ => u
  | .support_move u _ _ _ _ _ _ _ => u
  | .convoy u _ _ _ _ _ _ _ => u
  | .support_hold u _ _ _ _ _ => u
  | .move u _ _ _ _ => u
  | .hold u _ _ => u

/-- `parsed["location"]` (absent — only for `waive` — modelled as `""`). -/
def ParsedOrder.location : ParsedOrder → String
  | .waive => ""
  | .build _ l _ => l
  | .disband _ l _ => l
  | .retreat_disband _ l _ => l
  | .support_move _ l _ _ _ _ _ _ => l
  | .convoy _ l _ _ _ _ _ _ => l
  | .support_hold _ l _ _ _ _ => l
  | .move _ l _ _ _ => l
  | .hold _ l _ => l

/-- `m.group(i).upper()` as a `String`. -/
def grpUpper (caps : Caps) (i : Nat) : String :=
  String.mk ((grp caps i).map upperC)

/-- `m.group(i).strip()` as a `String`. -/
def grpStrip (caps : Caps) (i : Nat) : String :=
  String.mk (pyStrip (grp caps i))

/-- `m.group(i)` (optional group) as an `Option String`. -/
def grpOptStr (caps : Caps) (i : Nat) : Option String :=
  (grpOpt caps i).map String.mk

/-- `parse_order` of orders.py: strip, then try the nine patterns in the
source's order, returning the structured order of the first match
(`None` = `none` when nothing matches). -/
def parse_order (order_str : String) : Option ParsedOrder :=
  let s := pyStrip order_str.data
  if (waiveRe.fullMatch s).isSome then
    some .waive
  else match buildRe.fullMatch s with
  | some m => some (.build (grpUpper m 1) (grpStrip m 2) (grpOptStr m 3))
  | none => match winterDisbandRe.fullMatch s with
  | some m => some (.disband (grpUpper m 1) (grpStrip m 2) (grpOptStr m 3))
  | none => match retreatDisbandRe.fullMatch s with
  | some m =>
    some (.retreat_disband (grpUpper m 1) (grpStrip m 2) (grpOptStr m 3))
  | none => match supportMoveRe.fullMatch s with
  | some m =>
    some (.support_move (grpUpper m 1) (grpStrip m 2) (grpOptStr m 3)
      (grpUpper m 4) (grpStrip m 5) (grpOptStr m 6)
      (grpStrip m 7) (grpOptStr m 8))
  | none => match convoyRe.fullMatch s with
  | some m =>
    some (.convoy (grpUpper m 1) (grpStrip m 2) (grpOptStr m 3)
      (grpUpper m 4) (grpStrip m 5) (grpOptStr m 6)
      (grpStrip m 7) (grpOptStr m 8))
  | none => match supportHoldRe.fullMatch s with
  | some m =>
    some (.support_hold (grpUpper m 1) (grpStrip m 2) (grpOptStr m 3)
      (grpUpper m 4) (grpStrip m 5) (grpOptStr m 6))
  | none => match moveRe.fullMatch s with
  | some m =>
    some (.move (grpUpper m 1) (grpStrip m 2) (grpOptStr m 3)
      (grpStrip m 4) (grpOptStr m 5))
  | none => match holdRe.fullMatch s with
  | some m => some (.hold (grpUpper m 1) (grpStrip m 2) (grpOptStr m 3))
  | none => none

-- --- Game state (game_state.py) ---

/-- The `Phase` enum of game_state.py. -/
inductive Phase where
  | SPRING_DIPLOMACY
  | SPRING_MOVEMENT
  | SPRING_RETREAT
  | FALL_DIPLOMACY
  | FALL_MOVEMENT
  | FALL_RETREAT
  | WINTER_ADJUSTMENT
  deriving DecidableEq, Repr, Inhabited

/-- `Phase.value` — the enum's string value. -/
def Phase.value : Phase → String
  | .SPRING_DIPLOMACY => "Spring Diplomacy"
  | .SPRING_MOVEMENT => "Spring Movement"
  | .SPRING_RETREAT => "Spring Retreat"
  | .FALL_DIPLOMACY => "Fall Diplomacy"
  | .FALL_MOVEMENT => "Fall Movement"
  | .FALL_RETREAT => "Fall Retreat"
  | .WINTER_ADJUSTMENT => "Winter Adjustment"

/-- `PHASE_ORDER` of game_state.py. -/
def PHASE_ORDER : List Phase :=
  [.SPRING_DIPLOMACY, .SPRING_MOVEMENT, .SPRING_RETREAT,
   .FALL_DIPLOMACY, .FALL_MOVEMENT, .FALL_RETREAT, .WINTER_ADJUSTMENT]

/-- `POWERS` of game_state.py. -/
def POWERS : List String :=
  ["Austria", "England", "France", "Germany", "Italy", "Russia", "Turkey"]

/-- A unit dict `{"type": ..., "location": ...}`. -/
structure GUnit where
  type : String
  location : String
  deriving DecidableEq, Repr

/-- A dislodged record `{"power": ..., "unit": ..., "retreats": [...]}`. -/
structure DislodgedRec where
  power : String
  unit : GUnit
  retreats : List String
  deriving DecidableEq, Repr

/-- The game-state dict (the fields the specified core reads and writes).
`units` and `sc_ownership` are Python dicts, modelled as association
lists in insertion order with unique keys; a missing `"dislodged"` key
is the empty list (`state.get("dislodged", [])`). -/
structure GameState where
  year : Nat
  phase : Phase
  units : List (String × List GUnit)
  sc_ownership : List (String × String)
  eliminated : List String
  winner : Option String
  dislodged : List DislodgedRec
  deriving DecidableEq, Repr

/-- `state["units"].get(power, [])`. -/
def unitsOf (state : GameState) (power : String) : List GUnit :=
  ((state.units.find? fun e => e.1 = power).map Prod.snd).getD []

-- --- Order validation (orders.py) ---

/-- `_unit_type_abbrev` of orders.py. -/
def unit_type_abbrev (unit_type : String) : String :=
  if unit_type = "Army" ∨ unit_type = "A" then "A"
  else if unit_type = "Fleet" ∨ unit_type = "F" then "F"
  else unit_type

/-- `location.split("(")[0].strip()` — the base location, coast stripped. -/
def baseLoc (location : String) : String :=
  String.mk (pyStrip (beforeParen location.data))

/-- `_unit_matches` of orders.py. -/
def unit_matches (u : GUnit) (unit_type location : String) : Bool :=
  unit_type_abbrev u.type = unit_type ∧ baseLoc u.location = baseLoc location

/-- `_MOVEMENT_PHASES` -/
def MOVEMENT_PHASES : List Phase := [.SPRING_MOVEMENT, .FALL_MOVEMENT]

/-- `_DIPLOMACY_PHASES` -/
def DIPLOMACY_PHASES : List Phase := [.SPRING_DIPLOMACY, .FALL_DIPLOMACY]

/-- `_RETREAT_PHASES` -/
def RETREAT_PHASES : List Phase := [.SPRING_RETREAT, .FALL_RETREAT]

/-- `_ADJUSTMENT_PHASES` -/
def ADJUSTMENT_PHASES : List Phase := [.WINTER_ADJUSTMENT]

/-- `_MOVEMENT_ORDER_TYPES` -/
def MOVEMENT_ORDER_TYPES : List String :=
  ["move", "hold", "support_move", "support_hold", "convoy"]

/-- `_RETREAT_ORDER_TYPES` -/
def RETREAT_ORDER_TYPES : List String := ["move", "retreat_disband"]

/-- `_ADJUSTMENT_ORDER_TYPES` -/
def ADJUSTMENT_ORDER_TYPES : List String := ["build", "disband", "waive"]

/-- An ASCII single quote, as it appears inside the error strings. -/
def sq : String := String.mk [Char.ofNat 39]

/-- `validate_order` of orders.py: the `(is_valid, parsed, error)` triple.
The Python early-return `if/elif` chain is rendered as a nested
conditional with identical branching. -/
def validate_order (order_str power : String) (state : GameState) :
    Bool × Option ParsedOrder × Option String :=
  match parse_order order_str with
  | none => (false, none, some ("Cannot parse order: " ++ order_str))
  | some parsed =>
    let phase := state.phase
    let order_type := parsed.otype
    if phase ∈ MOVEMENT_PHASES ∧ order_type ∉ MOVEMENT_ORDER_TYPES then
      (false, some parsed,
        some ("Order type " ++ sq ++ order_type ++ sq ++ " not valid in "
          ++ phase.value))
    else if phase ∈ RETREAT_PHASES ∧ order_type ∉ RETREAT_ORDER_TYPES then
      (false, some parsed,
        some ("Order type " ++ sq ++ order_type ++ sq ++ " not valid in "
          ++ phase.value))
    else if phase ∈ ADJUSTMENT_PHASES ∧ order_type ∉ ADJUSTMENT_ORDER_TYPES then
      (false, some parsed,
        some ("Order type " ++ sq ++ order_type ++ sq ++ " not valid in "
          ++ phase.value))
    else if phase ∈ DIPLOMACY_PHASES then
      (false, some parsed, some ("No orders accepted during " ++ phase.value))
    else if order_type ∈ MOVEMENT_ORDER_TYPES ++ ["retreat_disband"] ∧
        ¬ (unitsOf state power).any
            (unit_matches · parsed.unit_type parsed.location) then
      (false, some parsed,
        some (power ++ " has no " ++ parsed.unit_type ++ " at "
          ++ parsed.location))
    else if phase ∈ RETREAT_PHASES ∧
        order_type ∈ ["move", "retreat_disband"] ∧
        ¬ state.dislodged.any (fun d =>
            d.power = power ∧
            unit_matches d.unit parsed.unit_type parsed.location) then
      (false, some parsed,
        some (power ++ " has no dislodged " ++ parsed.unit_type ++ " at "
          ++ parsed.location))
    else
      (true, some parsed, none)

/-- `default_orders` of orders.py. -/
def default_orders (power : String) (state : GameState) : List String :=
  let phase := state.phase
  let units := unitsOf state power
  if phase ∈ MOVEMENT_PHASES then
    units.map fun u => unit_type_abbrev u.type ++ " " ++ u.location ++ " H"
  else if phase ∈ RETREAT_PHASES then
    (state.dislodged.filter fun d => d.power = power).map fun d =>
      unit_type_abbrev d.unit.type ++ " " ++ d.unit.location ++ " Disband"
  else if phase ∈ ADJUSTMENT_PHASES then
    []
  else
    []

-- --- Phase state machine (game_state.py) ---

/-- `next_phase` of game_state.py: advance one phase, incrementing the
year on the wrap past Winter Adjustment. -/
def next_phase (state : GameState) : GameState :=
  let idx := PHASE_ORDER.findIdx (· = state.phase)
  if idx = PHASE_ORDER.length - 1 then
    { state with year := state.year + 1,
                 phase := PHASE_ORDER.getD 0 default }
  else
    { state with phase := PHASE_ORDER.getD (idx + 1) default }

/-- `skip_retreat_if_empty` of game_state.py. -/
def skip_retreat_if_empty (state : GameState) : GameState :=
  if state.phase = .SPRING_RETREAT ∨ state.phase = .FALL_RETREAT then
    if state.dislodged.isEmpty then next_phase state else state
  else state

-- --- Territorial resolution (game_state.py) ---

/-- `WIN_THRESHOLD` -/
def WIN_THRESHOLD : Nat := 18

/-- `sc_counts(state)[p]` for `p ∈ POWERS`: the number of supply centers
whose recorded owner is `p` (owners outside `POWERS` count nowhere). -/
def scCount (state : GameState) (p : String) : Nat :=
  (state.sc_ownership.filter fun e => e.2 = p).length

/-- The loop body of `check_win`: first power in `counts` (which
iterates in `POWERS` order) with at least `WIN_THRESHOLD` centers. -/
def checkWinGo (state : GameState) : List String → Option String
  | [] => none
  | p :: rest =>
    if WIN_THRESHOLD ≤ scCount state p then some p else checkWinGo state rest

/-- `check_win` of game_state.py. -/
def check_win (state : GameState) : Option String :=
  checkWinGo state POWERS

/-- Python dict value assignment `d[k] = v` for a key known to be
present (association-list form; keys are unique, so replacing every
entry with that key is the same update). -/
def assocSet (l : List (String × String)) (k v : String) :
    List (String × String) :=
  l.map fun e => if e.1 = k then (k, v) else e

/-- One unit's step of `update_sc_ownership`'s loop: if the unit's base
location is a key of `sc_ownership`, assign it to `power`. -/
def captureUnit (power : String) (sc : List (String × String)) (u : GUnit) :
    List (String × String) :=
  let base_loc := baseLoc u.location
  if (sc.find? fun e => e.1 = base_loc).isSome then assocSet sc base_loc power
  else sc

/-- One power's step of `update_sc_ownership`'s loop. -/
def capturePower (sc : List (String × String)) (pu : String × List GUnit) :
    List (String × String) :=
  pu.2.foldl (captureUnit pu.1) sc

/-- `update_sc_ownership` of game_state.py: for every unit on the board,
if its base location is a key of `sc_ownership`, assign it to the
unit's power. -/
def update_sc_ownership (state : GameState) : GameState :=
  { state with
    sc_ownership := state.units.foldl capturePower state.sc_ownership }

/-- The loop of `check_elimination`: walk `POWERS`, appending each power
with zero supply centers that the (growing) list does not yet hold. -/
def elimLoop (st : GameState) : List String → List String → List String
  | elim, [] => elim
  | elim, p :: ps =>
    if scCount st p = 0 ∧ p ∉ elim then elimLoop st (elim ++ [p]) ps
    else elimLoop st elim ps

/-- `check_elimination` of game_state.py: append every power with zero
supply centers that is not already recorded (the membership test sees
the appends made earlier in the same loop, as the Python list does). -/
def check_elimination (state : GameState) : GameState :=
  { state with eliminated := elimLoop state state.eliminated POWERS }

/-- `HOME_CENTERS`, flattened in its literal (insertion) order. -/
def HOME_CENTERS : List (String × List String) :=
  [("Austria", ["Vienna", "Budapest", "Trieste"]),
   ("England", ["London", "Edinburgh", "Liverpool"]),
   ("France", ["Brest", "Paris", "Marseilles"]),
   ("Germany", ["Kiel", "Berlin", "Munich"]),
   ("Italy", ["Naples", "Rome", "Venice"]),
   ("Russia", ["St Petersburg", "Moscow", "Warsaw", "Sevastopol"]),
   ("Turkey", ["Ankara", "Constantinople", "Smyrna"])]

/-- `ALL_SUPPLY_CENTERS`: the sorted union of the home centers and the
twelve neutral centers (the Python `sorted(set | set)`). -/
def ALL_SUPPLY_CENTERS : List String :=
  ["Ankara", "Belgium", "Berlin", "Brest", "Budapest", "Bulgaria",
   "Constantinople", "Denmark", "Edinburgh", "Greece", "Holland", "Kiel",
   "Liverpool", "London", "Marseilles", "Moscow", "Munich", "Naples",
   "Norway", "Paris", "Portugal", "Rome", "Rumania", "Serbia", "Sevastopol",
   "Smyrna", "Spain", "St Petersburg", "Sweden", "Trieste", "Tunis",
   "Venice", "Vienna", "Warsaw"]

/-- The hardcoded fallback `sc_ownership` built by `new_game` when jDip
is unavailable: each home center mapped to its power, in
`HOME_CENTERS` iteration order. -/
def initial_sc_ownership : List (String × String) :=
  HOME_CENTERS.flatMap fun pc => pc.2.map fun sc => (sc, pc.1)

/-- `STARTING_UNITS` of game_state.py. -/
def STARTING_UNITS : List (String × List GUnit) :=
  [("Austria", [⟨"Army", "Vienna"⟩, ⟨"Army", "Budapest"⟩,
                ⟨"Fleet", "Trieste"⟩]),
   ("England", [⟨"Fleet", "London"⟩, ⟨"Fleet", "Edinburgh"⟩,
                ⟨"Army", "Liverpool"⟩]),
   ("France", [⟨"Fleet", "Brest"⟩, ⟨"Army", "Paris"⟩,
               ⟨"Army", "Marseilles"⟩]),
   ("Germany", [⟨"Fleet", "Kiel"⟩, ⟨"Army", "Berlin"⟩, ⟨"Army", "Munich"⟩]),
   ("Italy", [⟨"Fleet", "Naples"⟩, ⟨"Army", "Rome"⟩, ⟨"Army", "Venice"⟩]),
   ("Russia", [⟨"Fleet", "St Petersburg (South Coast)"⟩, ⟨"Army", "Moscow"⟩,
               ⟨"Army", "Warsaw"⟩, ⟨"Fleet", "Sevastopol"⟩]),
   ("Turkey", [⟨"Fleet", "Ankara"⟩, ⟨"Army", "Constantinople"⟩,
               ⟨"Army", "Smyrna"⟩])]

-- --- The standard-map locations (orders.py PROVINCES and COASTS) ---

/-- `PROVINCES` of orders.py (as a list; only membership matters). -/
def PROVINCES : List String :=
  ["Bohemia", "Budapest", "Galicia", "Trieste", "Tyrolia", "Vienna",
   "Clyde", "Edinburgh", "Liverpool", "London", "Wales", "Yorkshire",
   "Brest", "Burgundy", "Gascony", "Marseilles", "Paris", "Picardy",
   "Berlin", "Kiel", "Munich", "Prussia", "Ruhr", "Silesia",
   "Apulia", "Naples", "Piedmont", "Rome", "Tuscany", "Venice",
   "Finland", "Livonia", "Moscow", "Sevastopol", "St Petersburg",
   "Ukraine", "Warsaw",
   "Ankara", "Armenia", "Constantinople", "Smyrna", "Syria",
   "Albania", "Belgium", "Bulgaria", "Denmark", "Greece", "Holland",
   "Norway", "Portugal", "Rumania", "Serbia", "Spain", "Sweden",
   "Tunis", "North Africa",
   "Adriatic Sea", "Aegean Sea", "Baltic Sea", "Barents Sea",
   "Black Sea", "Eastern Mediterranean", "English Channel",
   "Gulf of Bothnia", "Gulf of Lyon", "Helgoland Bight",
   "Ionian Sea", "Irish Sea", "Mid-Atlantic Ocean",
   "North Atlantic Ocean", "North Sea", "Norwegian Sea",
   "Skagerrak", "Tyrrhenian Sea", "Western Mediterranean"]

/-- The unit-location strings realizable on the standard map: every
province, plus the coast-qualified forms of the three split-coast
provinces of `COASTS` (the format `new_game`'s starting units use,
e.g. `"St Petersburg (South Coast)"`). -/
def STANDARD_LOCATIONS : List String :=
  PROVINCES ++
  ["St Petersburg (North Coast)", "St Petersburg (South Coast)",
   "Spain (North Coast)", "Spain (South Coast)",
   "Bulgaria (North Coast)", "Bulgaria (South Coast)"]

/-- `UNIT_TYPES` of orders.py. -/
def UNIT_TYPES : List String := ["Army", "Fleet", "A", "F"]

-- --- Concrete states used by the scenario conjuncts and witnesses ---

/-- The initial state `new_game` builds from the hardcoded fallback
positions (the jDip-independent branch): Spring Diplomacy 1901,
standard starting units, home centers owned by their powers. -/
def initial_state : GameState :=
  { year := 1901, phase := .SPRING_DIPLOMACY, units := STARTING_UNITS,
    sc_ownership := initial_sc_ownership, eliminated := [], winner := none,
    dislodged := [] }

/-- The test fixture `spring_movement_state`: the fresh game moved to
Spring Movement. -/
def spring_movement_state : GameState :=
  { initial_state with phase := .SPRING_MOVEMENT }

/-- A dislodged French army at Paris (the test fixture's record). -/
def dislodgedParis : DislodgedRec :=
  { power := "France", unit := { type := "Army", location := "Paris" },
    retreats := ["Burgundy", "Picardy"] }

/-- A Spring Retreat state in which France's army at Paris has been
dislodged and, as after a real adjudication, is no longer in France's
unit list. -/
def retreat_no_unit_state : GameState :=
  { initial_state with
    phase := .SPRING_RETREAT,
    units := [("France", [])],
    dislodged := [dislodgedParis] }

/-- A Winter Adjustment state in which France owns no units at all. -/
def winter_no_units_state : GameState :=
  { initial_state with
    phase := .WINTER_ADJUSTMENT,
    units := [("France", [])] }

/-- Scenario B's state: 18 of the 34 fixed supply centers assigned to
France, the rest unowned. -/
def france_eighteen_state : GameState :=
  { initial_state with
    sc_ownership := (ALL_SUPPLY_CENTERS.take 18).map fun sc => (sc, "France") }

/-- A state with no owned supply centers at all (every power at zero). -/
def empty_sc_state : GameState :=
  { initial_state with sc_ownership := [] }

/-- The initial state with a single French army standing on Belgium —
a supply center that the hardcoded initial `sc_ownership` (home centers
only) has no entry for. -/
def belgium_state : GameState :=
  { initial_state with units := [("France", [{ type := "Army", location := "Belgium" }])] }

-- --- Boolean checkers for the finite parse lemmas ---

/-- The generated Movement-phase default order `<a> <loc> H` parses to a
hold order for the same unit type and base location. -/
def holdParseOk (a loc : String) : Bool :=
  match parse_order (a ++ " " ++ loc ++ " H") with
  | some (.hold put ploc _) => put == a && baseLoc ploc == baseLoc loc
  | _ => false

/-- The generated Retreat-phase default order `<a> <loc> Disband` parses
to a retreat-disband order for the same unit type and base location. -/
def disbandParseOk (a loc : String) : Bool :=
  match parse_order (a ++ " " ++ loc ++ " Disband") with
  | some (.retreat_disband put ploc _) => put == a && baseLoc ploc == baseLoc loc
  | _ => false

/-- All nine order regexes fail to match (the stripped) `s`. -/
def allNineFail (s : List Char) : Bool :=
  (waiveRe.fullMatch s).isNone && (buildRe.fullMatch s).isNone &&
  (winterDisbandRe.fullMatch s).isNone &&
  (retreatDisbandRe.fullMatch s).isNone &&
  (supportMoveRe.fullMatch s).isNone && (convoyRe.fullMatch s).isNone &&
  (supportHoldRe.fullMatch s).isNone && (moveRe.fullMatch s).isNone &&
  (holdRe.fullMatch s).isNone

-- ===================================================================
-- Theorems
-- ===================================================================

set_option maxRecDepth 40000

-- --- Phase state machine lemmas (C5, C6) ---

/-- One `next_phase` step out of Spring Diplomacy. -/
theorem next_phase_SD (y : Nat) (un) (sc) (el) (wi) (di) :
    next_phase ⟨y, .SPRING_DIPLOMACY, un, sc, el, wi, di⟩ =
      ⟨y, .SPRING_MOVEMENT, un, sc, el, wi, di⟩ := rfl

/-- One `next_phase` step out of Spring Movement. -/
theorem next_phase_SM (y : Nat) (un) (sc) (el) (wi) (di) :
    next_phase ⟨y, .SPRING_MOVEMENT, un, sc, el, wi, di⟩ =
      ⟨y, .SPRING_RETREAT, un, sc, el, wi, di⟩ := rfl

/-- One `next_phase` step out of Spring Retreat. -/
theorem next_phase_SR (y : Nat) (un) (sc) (el) (wi) (di) :
    next_phase ⟨y, .SPRING_RETREAT, un, sc, el, wi, di⟩ =
      ⟨y, .FALL_DIPLOMACY, un, sc, el, wi, di⟩ := rfl

/-- One `next_phase` step out of Fall Diplomacy. -/
theorem next_phase_FD (y : Nat) (un) (sc) (el) (wi) (di) :
    next_phase ⟨y, .FALL_DIPLOMACY, un, sc, el, wi, di⟩ =
      ⟨y, .FALL_MOVEMENT, un, sc, el, wi, di⟩ := rfl

/-- One `next_phase` step out of Fall Movement. -/
theorem next_phase_FM (y : Nat) (un) (sc) (el) (wi) (di) :
    next_phase ⟨y, .FALL_MOVEMENT, un, sc, el, wi, di⟩ =
      ⟨y, .FALL_RETREAT, un, sc, el, wi, di⟩ := rfl

/-- One `next_phase` step out of Fall Retreat. -/
theorem next_phase_FR (y : Nat) (un) (sc) (el) (wi) (di) :
    next_phase ⟨y, .FALL_RETREAT, un, sc, el, wi, di⟩ =
      ⟨y, .WINTER_ADJUSTMENT, un, sc, el, wi, di⟩ := rfl

/-- One `next_phase` step out of Winter Adjustment: the wrap that
increments the year. -/
theorem next_phase_WA (y : Nat) (un) (sc) (el) (wi) (di) :
    next_phase ⟨y, .WINTER_ADJUSTMENT, un, sc, el, wi, di⟩ =
      ⟨y + 1, .SPRING_DIPLOMACY, un, sc, el, wi, di⟩ := rfl

/-- Claim C5: for every state over the 7 named phases, `next_phase`
applied exactly 7 times returns to the starting phase (indeed to the
whole starting state) with the year incremented by exactly 1; applying
it between 1 and 6 times changes the phase (hence phase or year); and a
single step increments the year exactly when it wraps past Winter
Adjustment. -/
theorem next_phase_seven_cycle (st : GameState) :
    next_phase^[7] st = { st with year := st.year + 1 } ∧
    (∀ k, 1 ≤ k → k ≤ 6 →
      (next_phase^[k] st).phase ≠ st.phase ∨
      (next_phase^[k] st).year ≠ st.year) ∧
    ((next_phase st).year = st.year + 1 ↔ st.phase = .WINTER_ADJUSTMENT) := by
  obtain ⟨y, ph, un, sc, el, wi, di⟩ := st
  refine ⟨?_, ?_, ?_⟩
  · cases ph <;>
      simp only [Function.iterate_succ_apply, Function.iterate_zero_apply,
        next_phase_SD, next_phase_SM, next_phase_SR, next_phase_FD,
        next_phase_FM, next_phase_FR, next_phase_WA]
  · intro k hk1 hk6
    interval_cases k <;> cases ph <;>
      simp only [Function.iterate_succ_apply, Function.iterate_zero_apply,
        next_phase_SD, next_phase_SM, next_phase_SR, next_phase_FD,
        next_phase_FM, next_phase_FR, next_phase_WA] <;>
      exact Or.inl (by decide)
  · cases ph <;>
      first
        | exact ⟨fun _ => rfl, fun _ => rfl⟩
        | exact ⟨fun h => absurd (show y = y + 1 from h) (by omega),
                 fun h => Phase.noConfusion h⟩

/-- Witness for C5 at the fresh game state and `k = 3`. -/
theorem next_phase_seven_cycle_witness :
    (next_phase^[3] initial_state).phase ≠ initial_state.phase ∨
    (next_phase^[3] initial_state).year ≠ initial_state.year :=
  (next_phase_seven_cycle initial_state).2.1 3 (by decide) (by decide)

/-- Claim C6: `skip_retreat_if_empty` advances exactly one phase (it
equals one `next_phase` step) on a Retreat phase with an empty dislodged
list, leaves the state unchanged on non-retreat phases or when
dislodgements are pending, and is idempotent. -/
theorem skip_retreat_if_empty_spec (st : GameState) :
    ((st.phase = .SPRING_RETREAT ∨ st.phase = .FALL_RETREAT) →
      st.dislodged = [] → skip_retreat_if_empty st = next_phase st) ∧
    (st.phase ∉ RETREAT_PHASES → skip_retreat_if_empty st = st) ∧
    (st.phase ∈ RETREAT_PHASES → st.dislodged ≠ [] →
      skip_retreat_if_empty st = st) ∧
    skip_retreat_if_empty (skip_retreat_if_empty st) =
      skip_retreat_if_empty st := by
  obtain ⟨y, ph, un, sc, el, wi, di⟩ := st
  cases ph <;> rcases di with _ | ⟨d, ds⟩ <;>
    refine ⟨fun h1 h2 => ?_, fun h => ?_, fun h1 h2 => ?_, ?_⟩ <;>
      first
        | rfl
        | simp_all [RETREAT_PHASES]

/-- Witness for C6 at a Spring Retreat state with one pending
dislodgement: `skip_retreat_if_empty` is a no-op. -/
theorem skip_retreat_if_empty_witness :
    skip_retreat_if_empty retreat_no_unit_state = retreat_no_unit_state :=
  (skip_retreat_if_empty_spec retreat_no_unit_state).2.2.1 (by decide)
    (by decide)

-- --- Parsing scenarios (C8) ---

/-- Claim C8: `parse_order "A Paris - Burgundy"` is a move of army
Paris to Burgundy, and
`parse_order "F St Petersburg (South Coast) - Gulf of Bothnia"` is a
fleet move whose trailing parenthesized clause is returned as the coast
qualifier and stripped from the base location. -/
theorem parse_order_scenarios :
    parse_order "A Paris - Burgundy" =
      some (.move "A" "Paris" none "Burgundy" none) ∧
    parse_order "F St Petersburg (South Coast) - Gulf of Bothnia" =
      some (.move "F" "St Petersburg" (some "South Coast")
        "Gulf of Bothnia" none) := by
  constructor <;> rfl

-- --- Frame property of update_sc_ownership (C10) ---

/-- `assocSet` replaces only values: the key list is untouched. -/
theorem assocSet_keys (l : List (String × String)) (k v : String) :
    (assocSet l k v).map Prod.fst = l.map Prod.fst := by
  induction l with
  | nil => rfl
  | cons e t ih =>
    simp only [assocSet, List.map_cons] at *
    by_cases h : e.1 = k
    · simp [h, ih]
    · simp [h, ih]

/-- `captureUnit` never adds or removes a key. -/
theorem captureUnit_keys (p : String) (sc : List (String × String))
    (u : GUnit) : (captureUnit p sc u).map Prod.fst = sc.map Prod.fst := by
  simp only [captureUnit]
  split
  · exact assocSet_keys ..
  · rfl

/-- Folding a key-preserving step preserves the key list. -/
theorem foldl_keys {α : Type} (f : List (String × String) → α →
      List (String × String))
    (hf : ∀ sc x, (f sc x).map Prod.fst = sc.map Prod.fst) :
    ∀ (l : List α) (sc : List (String × String)),
      (l.foldl f sc).map Prod.fst = sc.map Prod.fst := by
  intro l
  induction l with
  | nil => intro sc; rfl
  | cons x t ih => intro sc; rw [List.foldl_cons, ih, hf]

/-- `capturePower` never adds or removes a key. -/
theorem capturePower_keys (sc : List (String × String))
    (pu : String × List GUnit) :
    (capturePower sc pu).map Prod.fst = sc.map Prod.fst :=
  foldl_keys (captureUnit pu.1) (captureUnit_keys pu.1) pu.2 sc

-- --- Elimination lemmas (C7) ---

/-- `elimLoop` never removes a member. -/
theorem elimLoop_mem_mono (st : GameState) :
    ∀ (ps elim : List String) (x : String), x ∈ elim →
      x ∈ elimLoop st elim ps := by
  intro ps
  induction ps with
  | nil => intro elim x hx; simpa [elimLoop] using hx
  | cons q ps ih =>
    intro elim x hx
    simp only [elimLoop]
    split
    · exact ih _ _ (List.mem_append_left _ hx)
    · exact ih _ _ hx

/-- Every zero-count power in the walked list ends up a member. -/
theorem elimLoop_covers (st : GameState) :
    ∀ (ps elim : List String) (p : String), p ∈ ps → scCount st p = 0 →
      p ∈ elimLoop st elim ps := by
  intro ps
  induction ps with
  | nil => intro elim p hp _; exact absurd hp (by simp)
  | cons q ps ih =>
    intro elim p hp h0
    simp only [elimLoop]
    rcases List.mem_cons.mp hp with rfl | hp'
    · by_cases hc : scCount st p = 0 ∧ p ∉ elim
      · rw [if_pos hc]
        exact elimLoop_mem_mono st ps _ p
          (List.mem_append_right _ (List.mem_cons_self ..))
      · rw [if_neg hc]
        have hmem : p ∈ elim := by
          by_contra hne
          exact hc ⟨h0, hne⟩
        exact elimLoop_mem_mono st ps elim p hmem
    · by_cases hc : scCount st q = 0 ∧ q ∉ elim
      · rw [if_pos hc]; exact ih _ p hp' h0
      · rw [if_neg hc]; exact ih _ p hp' h0

/-- Once a power is a member, `elimLoop` does not change how often it
occurs. -/
theorem elimLoop_count_stable (st : GameState) :
    ∀ (ps elim : List String) (p : String), p ∈ elim →
      (elimLoop st elim ps).count p = elim.count p := by
  intro ps
  induction ps with
  | nil => intro elim p _; rfl
  | cons q ps ih =>
    intro elim p hp
    simp only [elimLoop]
    by_cases hc : scCount st q = 0 ∧ q ∉ elim
    · rw [if_pos hc]
      have hqp : q ≠ p := fun h => hc.2 (h ▸ hp)
      rw [ih (elim ++ [q]) p (List.mem_append_left _ hp)]
      simp [List.count_append, List.count_cons, hqp]
    · rw [if_neg hc]
      exact ih elim p hp

/-- A zero-count power not yet recorded is appended exactly once when
it occurs exactly once in the walked list. -/
theorem elimLoop_count_once (st : GameState) :
    ∀ (ps elim : List String) (p : String), scCount st p = 0 → p ∉ elim →
      ps.count p = 1 → (elimLoop st elim ps).count p = elim.count p + 1 := by
  intro ps
  induction ps with
  | nil => intro elim p _ _ hcnt; exact absurd hcnt (by simp)
  | cons q ps ih =>
    intro elim p h0 hne hcnt
    simp only [elimLoop]
    by_cases hqp : q = p
    · subst hqp
      rw [if_pos ⟨h0, hne⟩]
      have hps : q ∉ ps := by
        rw [List.count_cons_self] at hcnt
        exact List.count_eq_zero.mp (by omega)
      rw [elimLoop_count_stable st ps (elim ++ [q]) q
        (List.mem_append_right _ (List.mem_cons_self ..))]
      simp [List.count_append]
    · have hpq : p ≠ q := fun h => hqp h.symm
      have hcnt' : ps.count p = 1 := by
        rw [List.count_cons] at hcnt
        simp [beq_iff_eq, hqp] at hcnt
        exact hcnt
      by_cases hc : scCount st q = 0 ∧ q ∉ elim
      · rw [if_pos hc]
        rw [ih (elim ++ [q]) p h0
          (by simp [List.mem_append, hne, hpq]) hcnt']
        simp [List.count_append, List.count_cons, hqp]
      · rw [if_neg hc]
        exact ih elim p h0 hne hcnt'

/-- Claim C7: after `check_elimination`, every power with zero supply
centers is in `eliminated`; membership is monotonic (never removed);
and a zero-count power not yet recorded occurs exactly once even after
two consecutive runs. -/
theorem check_elimination_spec (st : GameState) (p : String) :
    (p ∈ POWERS → scCount st p = 0 → p ∈ (check_elimination st).eliminated) ∧
    (p ∈ st.eliminated → p ∈ (check_elimination st).eliminated) ∧
    (p ∈ POWERS → scCount st p = 0 → p ∉ st.eliminated →
      ((check_elimination (check_elimination st)).eliminated).count p = 1) := by
  refine ⟨fun hp h0 => ?_, fun hp => ?_, fun hp h0 hne => ?_⟩
  · exact elimLoop_covers st POWERS st.eliminated p hp h0
  · exact elimLoop_mem_mono st POWERS st.eliminated p hp
  · have hcnt : POWERS.count p = 1 := by
      fin_cases hp <;> decide
    have h1 : (check_elimination st).eliminated.count p = 1 := by
      have honce := elimLoop_count_once st POWERS st.eliminated p h0 hne hcnt
      rwa [List.count_eq_zero.mpr hne] at honce
    have hmem : p ∈ (check_elimination st).eliminated :=
      elimLoop_covers st POWERS st.eliminated p hp h0
    have h2 := elimLoop_count_stable (check_elimination st) POWERS
      (check_elimination st).eliminated p hmem
    exact h2.trans h1

/-- Witness for C7: on a state owning no supply centers at all, Austria
lands in `eliminated` exactly once across two runs. -/
theorem check_elimination_spec_witness :
    ((check_elimination (check_elimination empty_sc_state)).eliminated).count
      "Austria" = 1 :=
  (check_elimination_spec empty_sc_state "Austria").2.2 (by decide) (by decide)
    (by decide)

-- --- Win detection lemmas (C4) ---

/-- `checkWinGo` returns `none` exactly when every walked power is
below the threshold. -/
theorem checkWinGo_eq_none (st : GameState) :
    ∀ ps : List String, checkWinGo st ps = none ↔
      ∀ q ∈ ps, scCount st q < WIN_THRESHOLD := by
  intro ps
  induction ps with
  | nil => simp [checkWinGo]
  | cons a ps ih =>
    simp only [checkWinGo]
    by_cases h : WIN_THRESHOLD ≤ scCount st a
    · rw [if_pos h]
      constructor
      · intro habs; exact absurd habs (by simp)
      · intro hall
        exact absurd (lt_of_le_of_lt h (hall a (List.mem_cons_self ..)))
          (lt_irrefl _)
    · rw [if_neg h]
      rw [ih]
      constructor
      · intro hall q hq
        rcases List.mem_cons.mp hq with rfl | hq'
        · exact Nat.lt_of_not_le h
        · exact hall q hq'
      · intro hall q hq
        exact hall q (List.mem_cons_of_mem a hq)

/-- `checkWinGo` returns `some p` exactly when `p` is the first walked
power at or above the threshold. -/
theorem checkWinGo_eq_some (st : GameState) (p : String) :
    ∀ ps : List String, checkWinGo st ps = some p ↔
      ∃ l1 l2, ps = l1 ++ p :: l2 ∧
        (∀ q ∈ l1, scCount st q < WIN_THRESHOLD) ∧
        WIN_THRESHOLD ≤ scCount st p := by
  intro ps
  induction ps with
  | nil =>
    constructor
    · intro h; exact Option.noConfusion h
    · rintro ⟨l1, l2, heq, -, -⟩
      exact absurd heq.symm (by simp)
  | cons a ps ih =>
    simp only [checkWinGo]
    by_cases h : WIN_THRESHOLD ≤ scCount st a
    · rw [if_pos h]
      constructor
      · intro hsome
        obtain rfl := Option.some_inj.mp hsome
        exact ⟨[], ps, rfl, by simp, h⟩
      · rintro ⟨l1, l2, heq, hlt, hp⟩
        cases l1 with
        | nil =>
          simp only [List.nil_append, List.cons.injEq] at heq
          rw [heq.1]
        | cons b l1 =>
          simp only [List.cons_append, List.cons.injEq] at heq
          obtain ⟨rfl, -⟩ := heq
          exact absurd (lt_of_le_of_lt h (hlt a (List.mem_cons_self ..)))
            (lt_irrefl _)
    · rw [if_neg h]
      rw [ih]
      constructor
      · rintro ⟨l1, l2, heq, hlt, hp⟩
        refine ⟨a :: l1, l2, by rw [heq]; rfl, fun q hq => ?_, hp⟩
        rcases List.mem_cons.mp hq with rfl | hq'
        · exact Nat.lt_of_not_le h
        · exact hlt q hq'
      · rintro ⟨l1, l2, heq, hlt, hp⟩
        cases l1 with
        | nil =>
          simp only [List.nil_append, List.cons.injEq] at heq
          obtain ⟨rfl, -⟩ := heq
          exact absurd hp h
        | cons b l1 =>
          simp only [List.cons_append, List.cons.injEq] at heq
          obtain ⟨rfl, hps⟩ := heq
          exact ⟨l1, l2, hps, fun q hq => hlt q (List.mem_cons_of_mem _ hq),
            hp⟩

/-- Claim C4: `check_win` returns a power iff some power holds at least
18 supply centers; the returned power is the first such in the fixed
`POWERS` enumeration; every power at 17 or fewer yields `none`; and a
state assigning 18 of the 34 fixed centers to France yields France. -/
theorem check_win_spec (st : GameState) :
    ((check_win st).isSome ↔ ∃ p ∈ POWERS, WIN_THRESHOLD ≤ scCount st p) ∧
    (∀ p, check_win st = some p ↔ ∃ l1 l2, POWERS = l1 ++ p :: l2 ∧
      (∀ q ∈ l1, scCount st q < WIN_THRESHOLD) ∧
      WIN_THRESHOLD ≤ scCount st p) ∧
    ((∀ p ∈ POWERS, scCount st p ≤ 17) → check_win st = none) ∧
    check_win france_eighteen_state = some "France" := by
  refine ⟨?_, fun p => checkWinGo_eq_some st p POWERS, fun hall => ?_,
    by decide⟩
  · constructor
    · intro hs
      obtain ⟨p, hp⟩ := Option.isSome_iff_exists.mp hs
      obtain ⟨l1, l2, heq, -, hge⟩ := (checkWinGo_eq_some st p POWERS).mp hp
      refine ⟨p, ?_, hge⟩
      rw [heq]
      exact List.mem_append_right _ (List.mem_cons_self ..)
    · rintro ⟨p, hp, hge⟩
      by_contra hns
      have hnone : check_win st = none := Option.not_isSome_iff_eq_none.mp hns
      exact absurd hge
        (Nat.not_le.mpr ((checkWinGo_eq_none st POWERS).mp hnone p hp))
  · exact (checkWinGo_eq_none st POWERS).mpr
      (fun q hq => Nat.lt_of_le_of_lt (hall q hq) (by decide))

/-- Witness for C4: with no owned supply centers, `check_win` is
`none`. -/
theorem check_win_spec_witness : check_win empty_sc_state = none :=
  (check_win_spec empty_sc_state).2.2.1 (by decide)

-- --- Parse-failure behavior (C9) ---

/-- Counterexample to C9 as stated: `parse_order`'s failure value is
`None` (here `none`), which is one and the same value for every
unparseable input, so it cannot carry the offending input string. -/
theorem parse_failure_counterexample :
    parse_order "nonsense gibberish" = none ∧
    parse_order "total junk" = none ∧
    "nonsense gibberish" ≠ "total junk" := by
  refine ⟨by decide, by decide, by decide⟩

/-- Claim C9 (amended): on input matching none of the nine order forms,
`parse_order` returns the failure value `none` (never an exception,
being a total function), and it is `validate_order`'s error message —
not the parse result — that carries the offending input string, as
`"Cannot parse order: " ++ input`. -/
theorem parse_failure_spec (t power : String) (st : GameState) :
    (allNineFail (pyStrip t.data) = true → parse_order t = none) ∧
    (parse_order t = none →
      validate_order t power st =
        (false, none, some ("Cannot parse order: " ++ t))) := by
  constructor
  · intro h
    simp only [allNineFail, Bool.and_eq_true, Option.isNone_iff_eq_none] at h
    obtain ⟨⟨⟨⟨⟨⟨⟨⟨h1, h2⟩, h3⟩, h4⟩, h5⟩, h6⟩, h7⟩, h8⟩, h9⟩ := h
    simp [parse_order, h1, h2, h3, h4, h5, h6, h7, h8, h9]
  · intro h
    unfold validate_order
    rw [h]

/-- Witness for C9's amended theorem at a concrete unparseable input. -/
theorem parse_failure_spec_witness :
    validate_order "nonsense gibberish" "France" initial_state =
      (false, none, some "Cannot parse order: nonsense gibberish") :=
  (parse_failure_spec "nonsense gibberish" "France" initial_state).2
    (by decide)

-- --- Ownership gate (C2) ---

/-- Counterexample to C2 as stated: in a Winter Adjustment state where
France owns no unit at Paris at all, the Winter Disband order
`"Disband A Paris"` — which names an acting unit — is accepted with
ok=true: the ownership gate is never applied to winter disband
orders. -/
theorem ownership_gate_counterexample :
    parse_order "Disband A Paris" = some (.disband "A" "Paris" none) ∧
    unitsOf winter_no_units_state "France" = [] ∧
    winter_no_units_state.phase = .WINTER_ADJUSTMENT ∧
    validate_order "Disband A Paris" "France" winter_no_units_state =
      (true, some (.disband "A" "Paris" none), none) := by
  refine ⟨by decide, by decide, by decide, by decide⟩

/-- Claim C2 (amended): the ownership gate applies exactly to the order
types naming an acting unit in Movement/Retreat handling — move, hold,
support-move, support-hold, convoy and retreat-disband.  For those, when
the power owns no matching unit (coast-insensitively) and the phase
gate passes, `validate_order` returns ok=false with the ownership error
naming the missing unit type and location — never a parse-kind error.
Winter Disband (and Build/Waive) orders are not ownership-checked: in
an Adjustment phase they validate outright. -/
theorem ownership_gate_spec :
    (∀ (s power : String) (st : GameState) (o : ParsedOrder),
      parse_order s = some o →
      o.otype ∈ MOVEMENT_ORDER_TYPES ++ ["retreat_disband"] →
      (st.phase ∈ MOVEMENT_PHASES → o.otype ∈ MOVEMENT_ORDER_TYPES) →
      (st.phase ∈ RETREAT_PHASES → o.otype ∈ RETREAT_ORDER_TYPES) →
      (st.phase ∈ ADJUSTMENT_PHASES → o.otype ∈ ADJUSTMENT_ORDER_TYPES) →
      st.phase ∉ DIPLOMACY_PHASES →
      ¬ (unitsOf st power).any
          (unit_matches · o.unit_type o.location) = true →
      validate_order s power st =
        (false, some o,
          some (power ++ " has no " ++ o.unit_type ++ " at "
            ++ o.location))) ∧
    (∀ (s power : String) (st : GameState) (o : ParsedOrder),
      parse_order s = some o →
      st.phase ∈ ADJUSTMENT_PHASES → o.otype ∈ ADJUSTMENT_ORDER_TYPES →
      validate_order s power st = (true, some o, none)) := by
  constructor
  · intro s power st o hp hmem hg1 hg2 hg3 hdip hno
    unfold validate_order
    rw [hp]
    dsimp only
    rw [if_neg fun hc => hc.2 (hg1 hc.1)]
    rw [if_neg fun hc => hc.2 (hg2 hc.1)]
    rw [if_neg fun hc => hc.2 (hg3 hc.1)]
    rw [if_neg hdip]
    rw [if_pos ⟨hmem, hno⟩]
  · intro s power st o hp hadj hty
    have hph : st.phase = .WINTER_ADJUSTMENT := by
      simpa [ADJUSTMENT_PHASES] using hadj
    have hty' : o.otype = "build" ∨ o.otype = "disband" ∨
        o.otype = "waive" := by
      simpa [ADJUSTMENT_ORDER_TYPES] using hty
    unfold validate_order
    rw [hp]
    dsimp only
    rw [hph]
    rw [if_neg fun hc => absurd hc.1 (by decide)]
    rw [if_neg fun hc => absurd hc.1 (by decide)]
    rw [if_neg fun hc => hc.2 hty]
    rw [if_neg (by decide)]
    rw [if_neg fun hc => by
      rcases hty' with h | h | h <;> rw [h] at hc <;>
        exact absurd hc.1 (by decide)]
    rw [if_neg fun hc => absurd hc.1 (by decide)]

/-- Witness for C2's amended theorem: a movement order for a unit
France does not own draws the ownership error. -/
theorem ownership_gate_spec_witness :
    validate_order "A Berlin - Silesia" "France" spring_movement_state =
      (false, some (.move "A" "Berlin" none "Silesia" none),
        some "France has no A at Berlin") :=
  ownership_gate_spec.1 "A Berlin - Silesia" "France" spring_movement_state
    (.move "A" "Berlin" none "Silesia" none) (by decide) (by decide)
    (by decide) (by decide) (by decide) (by decide) (by decide)

-- --- Default orders (C1) ---

/-- Every standard-map location round-trips through an army hold
default order. -/
theorem holdParseOk_A : ∀ loc ∈ STANDARD_LOCATIONS,
    holdParseOk "A" loc = true := by decide

/-- Every standard-map location round-trips through a fleet hold
default order. -/
theorem holdParseOk_F : ∀ loc ∈ STANDARD_LOCATIONS,
    holdParseOk "F" loc = true := by decide

/-- Every standard-map location round-trips through an army disband
default order. -/
theorem disbandParseOk_A : ∀ loc ∈ STANDARD_LOCATIONS,
    disbandParseOk "A" loc = true := by decide

/-- Every standard-map location round-trips through a fleet disband
default order. -/
theorem disbandParseOk_F : ∀ loc ∈ STANDARD_LOCATIONS,
    disbandParseOk "F" loc = true := by decide

/-- Unpacking `holdParseOk`: the default hold order parses to a hold
for the same unit type and base location. -/
theorem holdParseOk_extract (a loc : String)
    (h : holdParseOk a loc = true) :
    ∃ ploc pcoast, parse_order (a ++ " " ++ loc ++ " H") =
      some (.hold a ploc pcoast) ∧ baseLoc ploc = baseLoc loc := by
  unfold holdParseOk at h
  cases hp : parse_order (a ++ " " ++ loc ++ " H") with
  | none => rw [hp] at h; exact absurd h (by simp)
  | some o =>
    rw [hp] at h
    cases o <;> simp at h
    case hold put ploc pcoast =>
      obtain ⟨rfl, hbl⟩ := h
      exact ⟨ploc, pcoast, rfl, hbl⟩

/-- Unpacking `disbandParseOk`: the default disband order parses to a
retreat-disband for the same unit type and base location. -/
theorem disbandParseOk_extract (a loc : String)
    (h : disbandParseOk a loc = true) :
    ∃ ploc pcoast, parse_order (a ++ " " ++ loc ++ " Disband") =
      some (.retreat_disband a ploc pcoast) ∧
      baseLoc ploc = baseLoc loc := by
  unfold disbandParseOk at h
  cases hp : parse_order (a ++ " " ++ loc ++ " Disband") with
  | none => rw [hp] at h; exact absurd h (by simp)
  | some o =>
    rw [hp] at h
    cases o <;> simp at h
    case retreat_disband put ploc pcoast =>
      obtain ⟨rfl, hbl⟩ := h
      exact ⟨ploc, pcoast, rfl, hbl⟩

/-- A well-formed unit type abbreviates to `"A"` or `"F"`. -/
theorem unit_type_abbrev_af (t : String) (ht : t ∈ UNIT_TYPES) :
    unit_type_abbrev t = "A" ∨ unit_type_abbrev t = "F" := by
  fin_cases ht <;> decide

/-- Counterexample to C1 as stated: in a Spring Retreat state whose
dislodged French army at Paris is (as after a real adjudication) no
longer in France's unit list, the generated default order
`"A Paris Disband"` is rejected by the validator's ownership gate. -/
theorem default_orders_counterexample :
    retreat_no_unit_state.phase = .SPRING_RETREAT ∧
    default_orders "France" retreat_no_unit_state = ["A Paris Disband"] ∧
    validate_order "A Paris Disband" "France" retreat_no_unit_state =
      (false, some (.retreat_disband "A" "Paris" none),
        some "France has no A at Paris") := by
  refine ⟨by decide, by decide, by decide⟩

/-- Claim C1 (amended): for every power and state whose units and
dislodged records are well-formed (unit types among Army/Fleet/A/F,
locations on the standard map) and in which every dislodged record of
the power is still backed by a matching owned unit — as in the
repository's own retreat fixtures — every order returned by
`default_orders` is accepted by `validate_order` with ok=true.
Movement-phase Hold defaults need no dislodged hypothesis; Adjustment
and Diplomacy phases generate no orders. -/
theorem default_orders_validate (st : GameState) (power : String)
    (hwf : ∀ u ∈ unitsOf st power,
      u.type ∈ UNIT_TYPES ∧ u.location ∈ STANDARD_LOCATIONS)
    (hdwf : ∀ d ∈ st.dislodged, d.power = power →
      d.unit.type ∈ UNIT_TYPES ∧ d.unit.location ∈ STANDARD_LOCATIONS)
    (hown : ∀ d ∈ st.dislodged, d.power = power →
      ∃ u ∈ unitsOf st power,
        unit_type_abbrev u.type = unit_type_abbrev d.unit.type ∧
        baseLoc u.location = baseLoc d.unit.location) :
    ∀ o ∈ default_orders power st, (validate_order o power st).1 = true := by
  intro o ho
  unfold default_orders at ho
  dsimp only at ho
  by_cases hm : st.phase ∈ MOVEMENT_PHASES
  · rw [if_pos hm] at ho
    obtain ⟨u, hu, rfl⟩ := List.mem_map.mp ho
    obtain ⟨hut, hul⟩ := hwf u hu
    have hok : holdParseOk (unit_type_abbrev u.type) u.location = true := by
      rcases unit_type_abbrev_af u.type hut with h | h <;> rw [h]
      · exact holdParseOk_A u.location hul
      · exact holdParseOk_F u.location hul
    obtain ⟨ploc, pcoast, hp, hbl⟩ := holdParseOk_extract _ _ hok
    have hm' : st.phase = .SPRING_MOVEMENT ∨ st.phase = .FALL_MOVEMENT := by
      simpa [MOVEMENT_PHASES] using hm
    have hany : (unitsOf st power).any
        (unit_matches · (ParsedOrder.hold (unit_type_abbrev u.type)
          ploc pcoast).unit_type
          (ParsedOrder.hold (unit_type_abbrev u.type) ploc
            pcoast).location) = true := by
      refine List.any_eq_true.mpr ⟨u, hu, ?_⟩
      simp [unit_matches, ParsedOrder.unit_type, ParsedOrder.location, hbl]
    unfold validate_order
    rw [hp]
    dsimp only
    rcases hm' with h | h <;> rw [h] <;>
      rw [if_neg fun hc =>
        hc.2 (by simp [ParsedOrder.otype, MOVEMENT_ORDER_TYPES])] <;>
      rw [if_neg fun hc => absurd hc.1 (by decide)] <;>
      rw [if_neg fun hc => absurd hc.1 (by decide)] <;>
      rw [if_neg (by decide)] <;>
      rw [if_neg fun hc => hc.2 hany] <;>
      rw [if_neg fun hc => absurd hc.1 (by decide)]
  · by_cases hr : st.phase ∈ RETREAT_PHASES
    · rw [if_neg hm, if_pos hr] at ho
      obtain ⟨d, hd, rfl⟩ := List.mem_map.mp ho
      have hdmem : d ∈ st.dislodged ∧ d.power = power := by
        have := List.mem_filter.mp hd
        exact ⟨this.1, of_decide_eq_true this.2⟩
      obtain ⟨hdu, hdp⟩ := hdmem
      obtain ⟨hdt, hdl⟩ := hdwf d hdu hdp
      obtain ⟨u, hu, hty, hloc⟩ := hown d hdu hdp
      have hok : disbandParseOk (unit_type_abbrev d.unit.type)
          d.unit.location = true := by
        rcases unit_type_abbrev_af d.unit.type hdt with h | h <;> rw [h]
        · exact disbandParseOk_A d.unit.location hdl
        · exact disbandParseOk_F d.unit.location hdl
      obtain ⟨ploc, pcoast, hp, hbl⟩ := disbandParseOk_extract _ _ hok
      have hr' : st.phase = .SPRING_RETREAT ∨ st.phase = .FALL_RETREAT := by
        simpa [RETREAT_PHASES] using hr
      have hany : (unitsOf st power).any
          (unit_matches · (ParsedOrder.retreat_disband
            (unit_type_abbrev d.unit.type) ploc pcoast).unit_type
            (ParsedOrder.retreat_disband (unit_type_abbrev d.unit.type)
              ploc pcoast).location) = true := by
        refine List.any_eq_true.mpr ⟨u, hu, ?_⟩
        simp [unit_matches, ParsedOrder.unit_type, ParsedOrder.location,
          hty, hloc, hbl]
      have hdisl : st.dislodged.any (fun d' => d'.power = power ∧
          unit_matches d'.unit (ParsedOrder.retreat_disband
            (unit_type_abbrev d.unit.type) ploc pcoast).unit_type
            (ParsedOrder.retreat_disband (unit_type_abbrev d.unit.type)
              ploc pcoast).location) = true := by
        refine List.any_eq_true.mpr ⟨d, hdu, ?_⟩
        simp [unit_matches, ParsedOrder.unit_type, ParsedOrder.location,
          hdp, hbl]
      unfold validate_order
      rw [hp]
      dsimp only
      rcases hr' with h | h <;> rw [h] <;>
        rw [if_neg fun hc => absurd hc.1 (by decide)] <;>
        rw [if_neg fun hc =>
          hc.2 (by simp [ParsedOrder.otype, RETREAT_ORDER_TYPES])] <;>
        rw [if_neg fun hc => absurd hc.1 (by decide)] <;>
        rw [if_neg (by decide)] <;>
        rw [if_neg fun hc => hc.2 hany] <;>
        rw [if_neg fun hc => hc.2.2 hdisl]
    · rw [if_neg hm, if_neg hr] at ho
      have : (if st.phase ∈ ADJUSTMENT_PHASES then ([] : List String)
          else []) = [] := by split <;> rfl
      rw [this] at ho
      exact absurd ho (by simp)

/-- Witness for C1's amended theorem: the fresh Spring Movement
defaults for France validate. -/
theorem default_orders_validate_witness :
    (validate_order "A Paris H" "France" spring_movement_state).1 = true :=
  default_orders_validate spring_movement_state "France" (by decide)
    (by decide) (by decide) "A Paris H" (by decide)

-- --- Phase gate (C3) ---

/-- Claim C3: `validate_order` accepts an order only when its parsed
type matches the current phase category — Movement phases pass exactly
{move, hold, support_move, support_hold, convoy}, Retreat phases
exactly {move, retreat_disband}, Adjustment exactly
{build, disband, waive}; any type outside the category draws the
phase-mismatch error, in a Diplomacy phase every parseable order is
rejected with a phase error, and `"Build A Paris"` for France in Spring
Movement is rejected with the phase-mismatch error. -/
theorem phase_gate_spec :
    (∀ (s power : String) (st : GameState) (o : ParsedOrder),
      parse_order s = some o →
      (st.phase ∈ MOVEMENT_PHASES → o.otype ∉ MOVEMENT_ORDER_TYPES →
        validate_order s power st = (false, some o,
          some ("Order type " ++ sq ++ o.otype ++ sq ++ " not valid in "
            ++ st.phase.value))) ∧
      (st.phase ∈ RETREAT_PHASES → o.otype ∉ RETREAT_ORDER_TYPES →
        validate_order s power st = (false, some o,
          some ("Order type " ++ sq ++ o.otype ++ sq ++ " not valid in "
            ++ st.phase.value))) ∧
      (st.phase ∈ ADJUSTMENT_PHASES → o.otype ∉ ADJUSTMENT_ORDER_TYPES →
        validate_order s power st = (false, some o,
          some ("Order type " ++ sq ++ o.otype ++ sq ++ " not valid in "
            ++ st.phase.value))) ∧
      (st.phase ∈ DIPLOMACY_PHASES →
        validate_order s power st = (false, some o,
          some ("No orders accepted during " ++ st.phase.value))) ∧
      ((validate_order s power st).1 = true →
        (st.phase ∈ MOVEMENT_PHASES → o.otype ∈ MOVEMENT_ORDER_TYPES) ∧
        (st.phase ∈ RETREAT_PHASES → o.otype ∈ RETREAT_ORDER_TYPES) ∧
        (st.phase ∈ ADJUSTMENT_PHASES → o.otype ∈ ADJUSTMENT_ORDER_TYPES) ∧
        st.phase ∉ DIPLOMACY_PHASES)) ∧
    validate_order "Build A Paris" "France" spring_movement_state =
      (false, some (.build "A" "Paris" none),
        some ("Order type " ++ sq ++ "build" ++ sq ++
          " not valid in Spring Movement")) := by
  constructor
  · intro s power st o hp
    have hmov : st.phase ∈ MOVEMENT_PHASES → o.otype ∉ MOVEMENT_ORDER_TYPES →
        validate_order s power st = (false, some o,
          some ("Order type " ++ sq ++ o.otype ++ sq ++ " not valid in "
            ++ st.phase.value)) := by
      intro hm hno
      unfold validate_order
      rw [hp]
      dsimp only
      rw [if_pos ⟨hm, hno⟩]
    have hret : st.phase ∈ RETREAT_PHASES → o.otype ∉ RETREAT_ORDER_TYPES →
        validate_order s power st = (false, some o,
          some ("Order type " ++ sq ++ o.otype ++ sq ++ " not valid in "
            ++ st.phase.value)) := by
      intro hr hno
      have hr' : st.phase = .SPRING_RETREAT ∨ st.phase = .FALL_RETREAT := by
        simpa [RETREAT_PHASES] using hr
      unfold validate_order
      rw [hp]
      dsimp only
      rcases hr' with h | h <;> rw [h] <;>
        rw [if_neg fun hc => absurd hc.1 (by decide)] <;>
        rw [if_pos ⟨by decide, hno⟩]
    have hadjm : st.phase ∈ ADJUSTMENT_PHASES →
        o.otype ∉ ADJUSTMENT_ORDER_TYPES →
        validate_order s power st = (false, some o,
          some ("Order type " ++ sq ++ o.otype ++ sq ++ " not valid in "
            ++ st.phase.value)) := by
      intro ha hno
      have ha' : st.phase = .WINTER_ADJUSTMENT := by
        simpa [ADJUSTMENT_PHASES] using ha
      unfold validate_order
      rw [hp]
      dsimp only
      rw [ha']
      rw [if_neg fun hc => absurd hc.1 (by decide)]
      rw [if_neg fun hc => absurd hc.1 (by decide)]
      rw [if_pos ⟨by decide, hno⟩]
    have hdipm : st.phase ∈ DIPLOMACY_PHASES →
        validate_order s power st = (false, some o,
          some ("No orders accepted during " ++ st.phase.value)) := by
      intro hd
      have hd' : st.phase = .SPRING_DIPLOMACY ∨
          st.phase = .FALL_DIPLOMACY := by
        simpa [DIPLOMACY_PHASES] using hd
      unfold validate_order
      rw [hp]
      dsimp only
      rcases hd' with h | h <;> rw [h] <;>
        rw [if_neg fun hc => absurd hc.1 (by decide)] <;>
        rw [if_neg fun hc => absurd hc.1 (by decide)] <;>
        rw [if_neg fun hc => absurd hc.1 (by decide)] <;>
        rw [if_pos (by decide)]
    refine ⟨hmov, hret, hadjm, hdipm, fun hok => ⟨?_, ?_, ?_, ?_⟩⟩
    · intro hm
      by_contra hno
      rw [hmov hm hno] at hok
      exact absurd hok (by simp)
    · intro hr
      by_contra hno
      rw [hret hr hno] at hok
      exact absurd hok (by simp)
    · intro ha
      by_contra hno
      rw [hadjm ha hno] at hok
      exact absurd hok (by simp)
    · intro hd
      rw [hdipm hd] at hok
      exact absurd hok (by simp)
  · decide

/-- Witness for C3: a movement order in a Diplomacy phase draws the
no-orders phase error. -/
theorem phase_gate_spec_witness :
    validate_order "A Paris - Burgundy" "France" initial_state =
      (false, some (.move "A" "Paris" none "Burgundy" none),
        some "No orders accepted during Spring Diplomacy") :=
  (phase_gate_spec.1 "A Paris - Burgundy" "France" initial_state
    (.move "A" "Paris" none "Burgundy" none) (by decide)).2.2.2.1 (by decide)

/-- Claim C10: `update_sc_ownership` changes only the values of keys
already present in `sc_ownership` — the key set is preserved — so a
unit standing on a supply center with no `sc_ownership` entry does not
capture it.  Concretely: under the hardcoded initial ownership (home
centers only), a French army on Belgium — one of the 34 fixed supply
centers — leaves Belgium without an entry. -/
theorem update_sc_ownership_frame (st : GameState) :
    (update_sc_ownership st).sc_ownership.map Prod.fst =
      st.sc_ownership.map Prod.fst ∧
    "Belgium" ∈ ALL_SUPPLY_CENTERS ∧
    baseLoc "Belgium" = "Belgium" ∧
    (belgium_state.sc_ownership.find? fun e => e.1 = "Belgium") = none ∧
    ((update_sc_ownership belgium_state).sc_ownership.find?
      fun e => e.1 = "Belgium") = none := by
  refine ⟨foldl_keys capturePower capturePower_keys st.units st.sc_ownership,
    by decide, by decide, by decide, by decide⟩

end Perfid
